import Mathlib

/-!
Verification development for the janela window-management library.

The Python sources are shallowly embedded: pure computations become Lean
functions over `Nat` / `Int` / `Rat`, fallible computations return
`Except` / `Option`, and the effectful backend calls (subprocess
invocations, X11 queries) are supplied to each embedded operation as
explicit oracle arguments describing the outcome of the one OS
interaction the source code performs at that point.
-/

namespace Janela

/-- Embeds the dataclass `Monitor` of janela/interfaces/models.py.  The
`wm` back-reference field is omitted: all monitors handled together come
from one backend instance, for which the dataclass equality used by the
source degenerates to equality of the remaining fields.  Per the data
model, `width` and `height` are pixel counts (non-negative), while `x`
and `y` live in the virtual-screen coordinate space and may be
negative. -/
structure Monitor where
  id : Int
  name : String
  x : Int
  y : Int
  width : Nat
  height : Nat
deriving DecidableEq, Repr

/-- Embeds `Monitor.contains` of janela/interfaces/models.py: the chained
comparison `self.x <= x < self.x + self.width and self.y <= y < self.y +
self.height`. -/
def Monitor.contains (m : Monitor) (px py : Int) : Bool :=
  (decide (m.x ≤ px) && decide (px < m.x + m.width)) &&
    (decide (m.y ≤ py) && decide (py < m.y + m.height))

/-- Embeds the dataclass `Window` of janela/interfaces/models.py, minus
the `wm` back-reference (see `Monitor`).  The `name` field is `Option
String`: the mosaic engine defends against a `None` title with
`w.name or ''`, so the missing-name case is represented. -/
structure Window where
  id : String
  name : Option String
  x : Int
  y : Int
  width : Nat
  height : Nat
  is_active : Bool
  pid : Option Int := none
deriving DecidableEq, Repr

/-- Embeds `run_command` of janela/util/cmd.py.  The oracle `outcome` is
`some out` when `subprocess.check_output` succeeds with stdout `out`, and
`none` when it raises `CalledProcessError`; the source catches that
exception, logs the failure, and returns the empty string.  The Python
function therefore always returns a `str` and never returns `None`. -/
def run_command (outcome : Option String) : String :=
  match outcome with
  | some out => out
  | none => ""

/-- Embeds `WindowManagerImpl.move_window_to_position` of
janela/_impl/wmctrl_xdotool_xlib.py.  `cmdOutcome` is the oracle for the
single wmctrl invocation.  The source stores `run_command(...)` (a
`str`) in `result` and then branches on `result is not None`, modelled
here as `(some result).isSome`.  Returns the window object as left by
the call, paired with `true` exactly when the failure branch (the
`logger.error` call of this function) was taken. -/
def WindowManagerImpl.move_window_to_position (cmdOutcome : Option String)
    (window : Window) (x y : Int) : Window × Bool :=
  let result : String := run_command cmdOutcome
  if (some result).isSome then
    ({ window with x := x, y := y }, false)
  else
    (window, true)

/-- Embeds `WindowManagerImpl.verify_window_move` of
janela/_impl/wmctrl_xdotool_xlib.py.  The two backend queries the source
performs are supplied as oracles: `requery` is the result of the single
`get_window_by_id(window.id)` call, and `monitorFor` gives the result of
`get_monitor_for_window` on the re-queried window.  Returns the boolean
result paired with the caller window object as left by the call (the
source mutates `window.x, window.y` on the success path only). -/
def WindowManagerImpl.verify_window_move (requery : Option Window)
    (monitorFor : Window → Option Monitor) (window : Window)
    (target_monitor : Monitor) (expected_x expected_y : Int) : Bool × Window :=
  match requery with
  | none => (false, window)
  | some updated_window =>
    if monitorFor updated_window ≠ some target_monitor then
      (false, window)
    else if 10 < |updated_window.x - expected_x| ∨ 10 < |updated_window.y - expected_y| then
      (false, window)
    else
      (true, { window with x := updated_window.x, y := updated_window.y })

/-- First element of a list satisfying a boolean predicate, or `none`.
Embeds the `for ... in ...: if cond: return ...` / `return None` loop
shape used by both backends for name lookup. -/
def find_first (p : α → Bool) : List α → Option α
  | [] => none
  | a :: as => if p a then some a else find_first p as

/-- ASCII model of Python `str.lower` on one character. -/
def lowerChar (c : Char) : Char :=
  if 65 ≤ c.toNat ∧ c.toNat ≤ 90 then Char.ofNat (c.toNat + 32) else c

/-- ASCII model of Python `str.lower`. -/
def lower (s : String) : String :=
  ⟨s.data.map lowerChar⟩

/-- The match test of `WindowManagerImpl.get_window_by_name`:
`name.lower() in window.name.lower()`, i.e. case-insensitive substring
containment.  Windows produced by `list_windows` always carry a parsed
string title, hence the `Option.getD` default is never exercised on the
domain of the claim. -/
def nameMatches (query : String) (w : Window) : Bool :=
  decide ((lower query).data <:+: (lower (w.name.getD "")).data)

/-- Embeds `WindowManagerImpl.get_window_by_name` of
janela/_impl/wmctrl_xdotool_xlib.py: first case-insensitive substring
match over the `list_windows()` output (passed in as `ws`), `none` when
no window matches. -/
def WindowManagerImpl.get_window_by_name (ws : List Window) (name : String) :
    Option Window :=
  find_first (fun w => nameMatches name w) ws

/-- Embeds `MacOSWindowManager.get_window_by_name` of
janela/_impl/mac.py: first window whose title is exactly equal
(case-sensitively) to the query, `none` when no window matches. -/
def MacOSWindowManager.get_window_by_name (ws : List Window) (name : String) :
    Option Window :=
  find_first (fun w => w.name.getD "" == name) ws

/-- Embeds the constant `_FULL_HD_RESOLUTION` of janela/playground/mosaic.py. -/
def FULL_HD_RESOLUTION : Nat × Nat := (1920, 1080)

/-- Embeds the constant `_QHD_RESOLUTION` of janela/playground/mosaic.py. -/
def QHD_RESOLUTION : Nat × Nat := (2560, 1440)

/-- Least natural number whose square is at least `n`.  Exact-arithmetic
model of `math.ceil(math.sqrt(n))` for a natural argument. -/
def ceil_sqrt (n : Nat) : Nat :=
  if Nat.sqrt n * Nat.sqrt n = n then Nat.sqrt n else Nat.sqrt n + 1

/-- Exact-arithmetic model of `math.ceil(math.sqrt(q))` for a rational
`q ≥ 0`: since the candidate values are integers, `n * n ≥ q` holds iff
`n * n ≥ ⌈q⌉₊`, so the rational case reduces to `ceil_sqrt` of the
ceiling. -/
def ceil_sqrt_rat (q : ℚ) : Nat :=
  ceil_sqrt ⌈q⌉₊

/-- One iteration of the capacity-growth `while` loop of
`get_number_of_rows_columns`: `rows += 1` on portrait monitors
(`width < height`), otherwise `columns += 1`. -/
def grow_step (width height : Nat) (p : Nat × Nat) : Nat × Nat :=
  if width < height then (p.1 + 1, p.2) else (p.1, p.2 + 1)

/-- Embeds the `while rows * columns < window_count` loop of
`get_number_of_rows_columns` in janela/playground/mosaic.py.  The loop
is entered with `rows ≥ 1` and `columns ≥ 1` (both are produced by
`max(1, ...)`); these facts are carried as hypotheses because they are
exactly what makes the loop terminate, each iteration growing the
product `rows * columns` by at least one. -/
def grow (width height window_count rows columns : Nat)
    (hr : 1 ≤ rows) (hc : 1 ≤ columns) : Nat × Nat :=
  if hlt : rows * columns < window_count then
    if width < height then
      grow width height window_count (rows + 1) columns (Nat.le_succ_of_le hr) hc
    else
      grow width height window_count rows (columns + 1) hr (Nat.le_succ_of_le hc)
  else
    (rows, columns)
termination_by window_count - rows * columns
decreasing_by
  · have hstep : rows * columns < (rows + 1) * columns := by
      have h1 : (rows + 1) * columns = rows * columns + columns := Nat.succ_mul rows columns
      have h2 : rows * columns < rows * columns + columns := Nat.lt_add_of_pos_right hc
      exact h1 ▸ h2
    exact Nat.sub_lt_sub_left hlt hstep
  · have hstep : rows * columns < rows * (columns + 1) := by
      have h1 : rows * (columns + 1) = rows * columns + rows := by ring
      have h2 : rows * columns < rows * columns + rows := Nat.lt_add_of_pos_right hr
      exact h1 ▸ h2
    exact Nat.sub_lt_sub_left hlt hstep

/-- Embeds the expression `monitor.width / monitor.height if
monitor.height != 0 else 1` of `get_number_of_rows_columns`. -/
def aspect_ratio_guarded (monitor : Monitor) : ℚ :=
  if monitor.height ≠ 0 then (monitor.width : ℚ) / (monitor.height : ℚ) else 1

/-- Embeds the general case of `get_number_of_rows_columns`:
`columns = max(1, ceil(sqrt(window_count * monitor_ratio)))`,
`rows = max(1, ceil(window_count / columns))`, then the capacity-growth
loop. -/
def general_rows_columns (window_count : Nat) (monitor : Monitor) : Nat × Nat :=
  grow monitor.width monitor.height window_count
    (max 1 ⌈(window_count : ℚ) /
        (Nat.cast (max 1 (ceil_sqrt_rat ((window_count : ℚ) * aspect_ratio_guarded monitor))) : ℚ)⌉₊)
    (max 1 (ceil_sqrt_rat ((window_count : ℚ) * aspect_ratio_guarded monitor)))
    (le_max_left 1 _) (le_max_left 1 _)

/-- Embeds `get_number_of_rows_columns` of janela/playground/mosaic.py.
The two `raise ValueError(...)` statements become `Except.error`; the
floating-point expressions of the source are modelled with exact
rational arithmetic.  The nested special-case block of the source
(`if ratio == 16/9 and width >= 1920:` with an inner `if / elif`)
is flattened into two disjoint guards with identical fall-through
behaviour, and the local variables `aspect_ratio` / `monitor_ratio`
(both pure) are inlined as `aspect_ratio_guarded monitor`. -/
def get_number_of_rows_columns (window_count : Nat) (monitor : Monitor) :
    Except String (Nat × Nat) :=
  if window_count ≤ 0 then
    Except.error "window_count must be greater than zero"
  else if monitor.height = 0 then
    Except.error "Monitor height cannot be zero"
  else if aspect_ratio_guarded monitor = 16 / 9 ∧ FULL_HD_RESOLUTION.1 ≤ monitor.width ∧
      window_count = 2 then
    Except.ok (1, 2)
  else if aspect_ratio_guarded monitor = 16 / 9 ∧ FULL_HD_RESOLUTION.1 ≤ monitor.width ∧
      window_count = 3 ∧ QHD_RESOLUTION.1 ≤ monitor.width then
    Except.ok (1, 3)
  else
    Except.ok (general_rows_columns window_count monitor)

/-- Sort key of the mosaic engine: `(w.name or '').lower()`.  A missing
(`None`) or empty title sorts as the empty string. -/
def sortKey (w : Window) : String :=
  lower (w.name.getD "")

/-- Boolean comparison used to model `sorted(windows, key=...)`:
ascending, case-insensitive order on the titles. -/
def windowLe (a b : Window) : Bool :=
  decide (sortKey a ≤ sortKey b)

/-- Models `sorted(windows, key=lambda w: (w.name or '').lower())` in
`mosaic`: a stable sort under the case-insensitive title key. -/
def sortWindows (ws : List Window) : List Window :=
  ws.mergeSort windowLe

/-- One backend mutation requested by the mosaic engine, in the order
the engine issues them. -/
inductive Cmd where
  | unmaximize (id : String)
  | maximize (id : String)
  | resize (id : String) (width height : Nat)
  | move (id : String) (x y : Int)
deriving DecidableEq, Repr

/-- Mutations issued for the window at sorted index `i`: conditional
unmaximize, then resize to the cell size, then move to the row-major
cell position.  Mirrors the loop body of `mosaic`. -/
def perWindowCmds (isMax : Window → Bool) (monitor : Monitor)
    (columns window_width window_height : Nat) (i : Nat) (w : Window) : List Cmd :=
  (if isMax w then [Cmd.unmaximize w.id] else []) ++
    [Cmd.resize w.id window_width window_height,
     Cmd.move w.id (monitor.x + ((i % columns) * window_width : Nat))
       (monitor.y + ((i / columns) * window_height : Nat))]

/-- Embeds the per-monitor body of `mosaic` in
janela/playground/mosaic.py as the list of backend mutations it issues.
`windows` is the subset of `list_windows()` whose derived monitor equals
`monitor`; `isMax` is the oracle for `is_window_maximized`.  A monitor
with no windows is skipped; a single window is maximized unless already
maximized; otherwise the sorted windows are tiled on the
`get_number_of_rows_columns` grid.  The `ValueError` of the heuristic is
caught by the per-monitor `except` block of the source, producing no
mutations. -/
def mosaic_for_monitor (isMax : Window → Bool) (monitor : Monitor)
    (windows : List Window) : List Cmd :=
  if windows.isEmpty then []
  else if (sortWindows windows).length = 1 then
    match (sortWindows windows).head? with
    | some w => if isMax w then [] else [Cmd.maximize w.id]
    | none => []
  else
    match get_number_of_rows_columns (sortWindows windows).length monitor with
    | Except.error _ => []
    | Except.ok (rows, columns) =>
      (sortWindows windows).enum.flatMap fun p =>
        perWindowCmds isMax monitor columns (monitor.width / columns)
          (monitor.height / rows) p.1 p.2

/-- Every rational is bounded by the square of some natural number, so
the least-square characterisation of `ceil(sqrt(q))` below is well
defined. -/
theorem spec_sqrt_exists (q : ℚ) : ∃ n : Nat, q ≤ (n : ℚ) * (n : ℚ) := by
  refine ⟨⌈q⌉₊, (Nat.le_ceil q).trans ?_⟩
  have h : (⌈q⌉₊ : Nat) ≤ ⌈q⌉₊ * ⌈q⌉₊ := by
    cases h0 : (⌈q⌉₊ : Nat) with
    | zero => simp
    | succ k => exact Nat.le_mul_of_pos_left _ (by omega)
  exact_mod_cast h

/-- Follows the claim wording for the general case of the row/column
heuristic: `ceil(sqrt(q))` as the least natural number whose square is
at least `q`. -/
def spec_ceil_sqrt (q : ℚ) : Nat :=
  Nat.find (spec_sqrt_exists q)

/-- The growth step keeps both grid dimensions at least one. -/
theorem grow_step_invariant (width height : Nat) (p : Nat × Nat)
    (h1 : 1 ≤ p.1) (h2 : 1 ≤ p.2) :
    1 ≤ (grow_step width height p).1 ∧ 1 ≤ (grow_step width height p).2 := by
  unfold grow_step
  split <;> exact ⟨by simp <;> omega, by simp <;> omega⟩

/-- Iterating the growth step `n` times from a grid with both
dimensions at least one keeps the invariant and raises the cell count
by at least `n`. -/
theorem grow_step_iterate_ge (width height : Nat) (p : Nat × Nat)
    (h1 : 1 ≤ p.1) (h2 : 1 ≤ p.2) :
    ∀ n : Nat,
      1 ≤ ((grow_step width height)^[n] p).1 ∧
      1 ≤ ((grow_step width height)^[n] p).2 ∧
      p.1 * p.2 + n ≤ ((grow_step width height)^[n] p).1 * ((grow_step width height)^[n] p).2 := by
  intro n
  induction n with
  | zero => exact ⟨by simpa using h1, by simpa using h2, by simp⟩
  | succ n ih =>
    obtain ⟨hq1, hq2, hqp⟩ := ih
    rw [Function.iterate_succ_apply']
    set q := (grow_step width height)^[n] p with hq
    unfold grow_step
    split
    · refine ⟨Nat.le_succ_of_le hq1, hq2, ?_⟩
      have hmul : (q.1 + 1) * q.2 = q.1 * q.2 + q.2 := Nat.succ_mul _ _
      simp only []
      linarith
    · refine ⟨hq1, Nat.le_succ_of_le hq2, ?_⟩
      have hmul : q.1 * (q.2 + 1) = q.1 * q.2 + q.1 := by ring
      simp only []
      linarith

/-- From any grid with both dimensions at least one, some number of
growth steps reaches a cell count of at least `window_count`. -/
theorem grow_step_reaches (width height window_count : Nat) (p : Nat × Nat)
    (h1 : 1 ≤ p.1) (h2 : 1 ≤ p.2) :
    ∃ n : Nat, window_count ≤
      ((grow_step width height)^[n] p).1 * ((grow_step width height)^[n] p).2 := by
  refine ⟨window_count, ?_⟩
  have h := (grow_step_iterate_ge width height p h1 h2 window_count).2.2
  have hp : 1 ≤ p.1 * p.2 := Nat.one_le_iff_ne_zero.mpr (by positivity)
  omega

/-- Follows the claim wording for the loop: the first grid in the
growth sequence whose cell count is at least `window_count`. -/
def firstSufficient (width height window_count : Nat) (p : Nat × Nat)
    (h1 : 1 ≤ p.1) (h2 : 1 ≤ p.2) : Nat × Nat :=
  (grow_step width height)^[Nat.find (grow_step_reaches width height window_count p h1 h2)] p

/-- Follows the claim wording for the whole heuristic (refinement
specification, to be compared with `get_number_of_rows_columns`):
`(1, 2)` when the aspect ratio is exactly 16/9, the width is at least
1920 and the window count is 2; `(1, 3)` when the ratio is exactly
16/9, the width is at least 2560 and the window count is 3; otherwise
`columns = max(1, ceil(sqrt(window_count * width / height)))`,
`rows = max(1, ceil(window_count / columns))`, then the first pair in
the growth sequence whose product is at least `window_count`.
`spec_general_rows_columns` is the general case, `rowsColumnsSpec` the
full case split. -/
def spec_general_rows_columns (window_count : Nat) (monitor : Monitor) : Nat × Nat :=
  firstSufficient monitor.width monitor.height window_count
    (max 1 ⌈(window_count : ℚ) /
        (Nat.cast (max 1 (spec_ceil_sqrt ((window_count : ℚ) *
          ((monitor.width : ℚ) / (monitor.height : ℚ))))) : ℚ)⌉₊,
      max 1 (spec_ceil_sqrt ((window_count : ℚ) *
        ((monitor.width : ℚ) / (monitor.height : ℚ)))))
    (le_max_left 1 _) (le_max_left 1 _)

def rowsColumnsSpec (window_count : Nat) (monitor : Monitor) : Nat × Nat :=
  if (monitor.width : ℚ) / (monitor.height : ℚ) = 16 / 9 ∧ 1920 ≤ monitor.width ∧
      window_count = 2 then
    (1, 2)
  else if (monitor.width : ℚ) / (monitor.height : ℚ) = 16 / 9 ∧ 2560 ≤ monitor.width ∧
      window_count = 3 then
    (1, 3)
  else
    spec_general_rows_columns window_count monitor

/-! Helper lemmas. -/

theorem ceil_sqrt_le_sq (m : Nat) : m ≤ ceil_sqrt m * ceil_sqrt m := by
  unfold ceil_sqrt
  split
  · rename_i h
    exact le_of_eq h.symm
  · have h := Nat.lt_succ_sqrt m
    simpa [Nat.succ_eq_add_one] using Nat.le_of_lt h

theorem ceil_sqrt_le_iff (m k : Nat) : ceil_sqrt m ≤ k ↔ m ≤ k * k := by
  constructor
  · intro h
    exact (ceil_sqrt_le_sq m).trans (Nat.mul_le_mul h h)
  · intro h
    unfold ceil_sqrt
    split
    · rename_i hsq
      have h2 := Nat.sqrt_le_sqrt h
      rwa [Nat.sqrt_eq] at h2
    · rename_i hsq
      by_contra hcon
      push_neg at hcon
      have hk : k ≤ Nat.sqrt m := by omega
      have h1 : k * k ≤ Nat.sqrt m * Nat.sqrt m := Nat.mul_le_mul hk hk
      have h2 : Nat.sqrt m * Nat.sqrt m ≤ m := Nat.sqrt_le m
      have hmk : m = k * k := le_antisymm h (h1.trans h2)
      exact hsq (by rw [hmk, Nat.sqrt_eq])

theorem spec_ceil_sqrt_eq (q : ℚ) : spec_ceil_sqrt q = ceil_sqrt_rat q := by
  unfold spec_ceil_sqrt ceil_sqrt_rat
  rw [Nat.find_eq_iff]
  constructor
  · have h : (⌈q⌉₊ : Nat) ≤ ceil_sqrt ⌈q⌉₊ * ceil_sqrt ⌈q⌉₊ := ceil_sqrt_le_sq _
    have h2 : q ≤ ((ceil_sqrt ⌈q⌉₊ * ceil_sqrt ⌈q⌉₊ : Nat) : ℚ) := Nat.ceil_le.mp h
    push_cast at h2
    exact h2
  · intro k hk hcon
    have h1 : (⌈q⌉₊ : Nat) ≤ k * k := Nat.ceil_le.mpr (by push_cast; exact hcon)
    have h2 : ceil_sqrt ⌈q⌉₊ ≤ k := (ceil_sqrt_le_iff _ _).mpr h1
    omega

theorem firstSufficient_of_ge (width height window_count : Nat) (p : Nat × Nat)
    (h1 : 1 ≤ p.1) (h2 : 1 ≤ p.2) (hge : window_count ≤ p.1 * p.2) :
    firstSufficient width height window_count p h1 h2 = p := by
  unfold firstSufficient
  have h0 : Nat.find (grow_step_reaches width height window_count p h1 h2) = 0 :=
    (Nat.find_eq_zero _).mpr (by simpa using hge)
  rw [h0]
  exact Function.iterate_zero_apply _ _

theorem firstSufficient_step (width height window_count : Nat) (p : Nat × Nat)
    (h1 : 1 ≤ p.1) (h2 : 1 ≤ p.2) (hlt : p.1 * p.2 < window_count) :
    firstSufficient width height window_count p h1 h2 =
      firstSufficient width height window_count (grow_step width height p)
        (grow_step_invariant width height p h1 h2).1
        (grow_step_invariant width height p h1 h2).2 := by
  unfold firstSufficient
  have hfind : Nat.find (grow_step_reaches width height window_count p h1 h2) =
      Nat.find (grow_step_reaches width height window_count (grow_step width height p)
        (grow_step_invariant width height p h1 h2).1
        (grow_step_invariant width height p h1 h2).2) + 1 := by
    rw [Nat.find_eq_iff]
    refine ⟨?_, ?_⟩
    · rw [Function.iterate_succ_apply]
      exact Nat.find_spec (grow_step_reaches width height window_count
        (grow_step width height p)
        (grow_step_invariant width height p h1 h2).1
        (grow_step_invariant width height p h1 h2).2)
    · intro m hm
      cases m with
      | zero =>
        intro hcon
        simp only [Function.iterate_zero_apply] at hcon
        exact absurd hcon (Nat.not_le.mpr hlt)
      | succ j =>
        intro hcon
        rw [Function.iterate_succ_apply] at hcon
        exact Nat.find_min (grow_step_reaches width height window_count
          (grow_step width height p)
          (grow_step_invariant width height p h1 h2).1
          (grow_step_invariant width height p h1 h2).2) (by omega) hcon
  rw [hfind, Function.iterate_succ_apply]

theorem firstSufficient_congr (width height window_count : Nat) (p q : Nat × Nat)
    (hpq : p = q) (h1 : 1 ≤ p.1) (h2 : 1 ≤ p.2) :
    firstSufficient width height window_count p h1 h2 =
      firstSufficient width height window_count q (hpq ▸ h1) (hpq ▸ h2) := by
  subst hpq
  rfl

theorem firstSufficient_step_rows (width height window_count rows columns : Nat)
    (hr : 1 ≤ rows) (hc : 1 ≤ columns) (hwh : width < height)
    (hlt : rows * columns < window_count) :
    firstSufficient width height window_count (rows, columns) hr hc =
      firstSufficient width height window_count (rows + 1, columns)
        (Nat.le_succ_of_le hr) hc := by
  rw [firstSufficient_step width height window_count (rows, columns) hr hc hlt]
  have hstep : grow_step width height (rows, columns) = (rows + 1, columns) := by
    simp [grow_step, hwh]
  exact firstSufficient_congr width height window_count _ _ hstep _ _

theorem firstSufficient_step_columns (width height window_count rows columns : Nat)
    (hr : 1 ≤ rows) (hc : 1 ≤ columns) (hwh : ¬ width < height)
    (hlt : rows * columns < window_count) :
    firstSufficient width height window_count (rows, columns) hr hc =
      firstSufficient width height window_count (rows, columns + 1)
        hr (Nat.le_succ_of_le hc) := by
  rw [firstSufficient_step width height window_count (rows, columns) hr hc hlt]
  have hstep : grow_step width height (rows, columns) = (rows, columns + 1) := by
    simp [grow_step, hwh]
  exact firstSufficient_congr width height window_count _ _ hstep _ _

theorem grow_eq_firstSufficient_aux (width height window_count : Nat) :
    ∀ (fuel rows columns : Nat) (hr : 1 ≤ rows) (hc : 1 ≤ columns),
      window_count - rows * columns ≤ fuel →
      grow width height window_count rows columns hr hc =
        firstSufficient width height window_count (rows, columns) hr hc := by
  intro fuel
  induction fuel with
  | zero =>
    intro rows columns hr hc hf
    have hge : window_count ≤ rows * columns :=
      Nat.le_of_sub_eq_zero (Nat.le_zero.mp hf)
    rw [grow, dif_neg (Nat.not_lt.mpr hge)]
    exact (firstSufficient_of_ge width height window_count (rows, columns) hr hc hge).symm
  | succ n ih =>
    intro rows columns hr hc hf
    by_cases hlt : rows * columns < window_count
    · rw [grow, dif_pos hlt]
      by_cases hwh : width < height
      · rw [if_pos hwh]
        have hmeas : window_count - (rows + 1) * columns ≤ n := by
          have h1 : rows * columns + columns = (rows + 1) * columns :=
            (Nat.succ_mul rows columns).symm
          have key : ∀ A B : Nat, A + columns = B → window_count - A ≤ n + 1 →
              A < window_count → window_count - B ≤ n := by
            intro A B e1 e2 e3
            omega
          exact key (rows * columns) ((rows + 1) * columns) h1 hf hlt
        rw [ih (rows + 1) columns (Nat.le_succ_of_le hr) hc hmeas]
        exact (firstSufficient_step_rows width height window_count rows columns
          hr hc hwh hlt).symm
      · rw [if_neg hwh]
        have hmeas : window_count - rows * (columns + 1) ≤ n := by
          have h1 : rows * columns + rows = rows * (columns + 1) := by ring
          have key : ∀ A B : Nat, A + rows = B → window_count - A ≤ n + 1 →
              A < window_count → window_count - B ≤ n := by
            intro A B e1 e2 e3
            omega
          exact key (rows * columns) (rows * (columns + 1)) h1 hf hlt
        rw [ih rows (columns + 1) hr (Nat.le_succ_of_le hc) hmeas]
        exact (firstSufficient_step_columns width height window_count rows columns
          hr hc hwh hlt).symm
    · rw [grow, dif_neg hlt]
      exact (firstSufficient_of_ge width height window_count (rows, columns) hr hc
        (Nat.not_lt.mp hlt)).symm

theorem grow_eq_firstSufficient (width height window_count rows columns : Nat)
    (hr : 1 ≤ rows) (hc : 1 ≤ columns) :
    grow width height window_count rows columns hr hc =
      firstSufficient width height window_count (rows, columns) hr hc :=
  grow_eq_firstSufficient_aux width height window_count
    (window_count - rows * columns) rows columns hr hc le_rfl

theorem firstSufficient_capacity (width height window_count : Nat) (p : Nat × Nat)
    (h1 : 1 ≤ p.1) (h2 : 1 ≤ p.2) :
    window_count ≤ (firstSufficient width height window_count p h1 h2).1 *
      (firstSufficient width height window_count p h1 h2).2 := by
  unfold firstSufficient
  exact Nat.find_spec (grow_step_reaches width height window_count p h1 h2)

theorem aspect_ratio_guarded_eq (m : Monitor) (hh : m.height ≠ 0) :
    aspect_ratio_guarded m = (m.width : ℚ) / (m.height : ℚ) :=
  if_pos hh

theorem get_rows_columns_ok (window_count : Nat) (m : Monitor)
    (hw : 0 < window_count) (hh : m.height ≠ 0) :
    ∃ p, get_number_of_rows_columns window_count m = Except.ok p := by
  cases hres : get_number_of_rows_columns window_count m with
  | ok p => exact ⟨p, rfl⟩
  | error e =>
    exfalso
    unfold get_number_of_rows_columns at hres
    rw [if_neg (by omega : ¬ window_count ≤ 0), if_neg hh] at hres
    split at hres
    · exact Except.noConfusion hres
    · split at hres
      · exact Except.noConfusion hres
      · exact Except.noConfusion hres

theorem firstSufficient_eq_iterate (width height window_count : Nat) (p : Nat × Nat)
    (h1 : 1 ≤ p.1) (h2 : 1 ≤ p.2) :
    firstSufficient width height window_count p h1 h2 =
      (grow_step width height)^[Nat.find
        (grow_step_reaches width height window_count p h1 h2)] p :=
  rfl

theorem grow_step_strict_product (width height : Nat) (p : Nat × Nat)
    (h1 : 1 ≤ p.1) (h2 : 1 ≤ p.2) :
    p.1 * p.2 < (grow_step width height p).1 * (grow_step width height p).2 := by
  unfold grow_step
  split
  · show p.1 * p.2 < (p.1 + 1) * p.2
    rw [Nat.succ_mul]
    exact Nat.lt_add_of_pos_right h2
  · show p.1 * p.2 < p.1 * (p.2 + 1)
    rw [Nat.mul_succ]
    exact Nat.lt_add_of_pos_right h1

attribute [irreducible] firstSufficient

theorem grow_congr (width height window_count r1 c1 r2 c2 : Nat)
    (hr1 : 1 ≤ r1) (hc1 : 1 ≤ c1) (hr : r1 = r2) (hc : c1 = c2) :
    grow width height window_count r1 c1 hr1 hc1 =
      grow width height window_count r2 c2 (hr ▸ hr1) (hc ▸ hc1) := by
  subst hr
  subst hc
  rfl

theorem general_eq_spec (window_count : Nat) (m : Monitor) (hh : m.height ≠ 0) :
    general_rows_columns window_count m = spec_general_rows_columns window_count m := by
  have hcol : max 1 (ceil_sqrt_rat ((window_count : ℚ) * aspect_ratio_guarded m)) =
      max 1 (spec_ceil_sqrt ((window_count : ℚ) * ((m.width : ℚ) / (m.height : ℚ)))) := by
    rw [aspect_ratio_guarded_eq m hh, spec_ceil_sqrt_eq]
  have hrow : (max 1 ⌈(window_count : ℚ) /
        (Nat.cast (max 1 (ceil_sqrt_rat ((window_count : ℚ) * aspect_ratio_guarded m))) : ℚ)⌉₊) =
      (max 1 ⌈(window_count : ℚ) /
        (Nat.cast (max 1 (spec_ceil_sqrt ((window_count : ℚ) *
          ((m.width : ℚ) / (m.height : ℚ))))) : ℚ)⌉₊) := by
    rw [hcol]
  unfold general_rows_columns spec_general_rows_columns
  exact (grow_congr _ _ _ _ _ _ _ _ _ hrow hcol).trans
    (grow_eq_firstSufficient _ _ _ _ _ _ _)

/-! Claim theorems. -/

/-- C2: for every `window_count > 0` and every monitor with nonzero
height, `get_number_of_rows_columns` returns `(1, 2)` on an exact-16/9
monitor of width at least 1920 with two windows, `(1, 3)` on an
exact-16/9 monitor of width at least 2560 with three windows, and in
every other case the grid obtained from
`columns = max(1, ceil(sqrt(window_count * width / height)))`,
`rows = max(1, ceil(window_count / columns))` followed by the capacity
growth loop, i.e. the first pair of the growth sequence whose product
is at least `window_count` (`rowsColumnsSpec`). -/
theorem C2_heuristic_matches_spec (window_count : Nat) (m : Monitor)
    (hw : 0 < window_count) (hh : m.height ≠ 0) :
    get_number_of_rows_columns window_count m =
      Except.ok (rowsColumnsSpec window_count m) := by
  have har := aspect_ratio_guarded_eq m hh
  unfold get_number_of_rows_columns rowsColumnsSpec
  rw [if_neg (by omega : ¬ window_count ≤ 0), if_neg hh]
  by_cases h1 : (m.width : ℚ) / (m.height : ℚ) = 16 / 9 ∧ 1920 ≤ m.width ∧ window_count = 2
  · have h1' : aspect_ratio_guarded m = 16 / 9 ∧ FULL_HD_RESOLUTION.1 ≤ m.width ∧
        window_count = 2 := by
      rw [har]
      exact h1
    rw [if_pos h1', if_pos h1]
  · have h1' : ¬ (aspect_ratio_guarded m = 16 / 9 ∧ FULL_HD_RESOLUTION.1 ≤ m.width ∧
        window_count = 2) := by
      rw [har]
      exact h1
    rw [if_neg h1', if_neg h1]
    by_cases h2 : (m.width : ℚ) / (m.height : ℚ) = 16 / 9 ∧ 2560 ≤ m.width ∧ window_count = 3
    · have h2' : aspect_ratio_guarded m = 16 / 9 ∧ FULL_HD_RESOLUTION.1 ≤ m.width ∧
          window_count = 3 ∧ QHD_RESOLUTION.1 ≤ m.width := by
        rw [har]
        have hq : (2560 : Nat) ≤ m.width := h2.2.1
        exact ⟨h2.1, by show (1920 : Nat) ≤ m.width; omega, h2.2.2, h2.2.1⟩
      rw [if_pos h2', if_pos h2]
    · have h2' : ¬ (aspect_ratio_guarded m = 16 / 9 ∧ FULL_HD_RESOLUTION.1 ≤ m.width ∧
          window_count = 3 ∧ QHD_RESOLUTION.1 ≤ m.width) := by
        rw [har]
        intro hcon
        exact h2 ⟨hcon.1, hcon.2.2.2, hcon.2.2.1⟩
      rw [if_neg h2', if_neg h2]
      exact congrArg Except.ok (general_eq_spec window_count m hh)

/-- C2 witness: the theorem applied to five windows on a 1920x1080
monitor. -/
theorem C2_heuristic_matches_spec_witness :
    0 < 5 ∧ (Monitor.mk 1 "hd" 0 0 1920 1080).height ≠ 0 ∧
    get_number_of_rows_columns 5 (Monitor.mk 1 "hd" 0 0 1920 1080) =
      Except.ok (rowsColumnsSpec 5 (Monitor.mk 1 "hd" 0 0 1920 1080)) :=
  ⟨by decide, by decide,
    C2_heuristic_matches_spec 5 (Monitor.mk 1 "hd" 0 0 1920 1080) (by decide) (by decide)⟩

/-- The portrait monitor of claim C4. -/
def portraitMonitor : Monitor :=
  { id := 0, name := "portrait", x := 0, y := 0, width := 1080, height := 1920 }

theorem portrait_eval :
    get_number_of_rows_columns 3 portraitMonitor = Except.ok (2, 2) := by
  have haspect : aspect_ratio_guarded portraitMonitor = 9 / 16 := by
    unfold aspect_ratio_guarded portraitMonitor
    norm_num
  have hq : ((3 : ℚ) * aspect_ratio_guarded portraitMonitor) = 27 / 16 := by
    rw [haspect]
    norm_num
  have hceil : (⌈(27 / 16 : ℚ)⌉₊ : Nat) = 2 := by
    rw [Nat.ceil_eq_iff (by norm_num)]
    norm_num
  have hs2 : Nat.sqrt 2 = 1 := by
    symm
    rw [Nat.eq_sqrt]
    norm_num
  have hsq : ceil_sqrt 2 = 2 := by
    unfold ceil_sqrt
    rw [hs2]
    norm_num
  have hcol : max 1 (ceil_sqrt_rat ((3 : ℚ) * aspect_ratio_guarded portraitMonitor)) = 2 := by
    rw [hq]
    unfold ceil_sqrt_rat
    rw [hceil, hsq]
    omega
  have h32 : (⌈(3 : ℚ) / ((2 : Nat) : ℚ)⌉₊ : Nat) = 2 := by
    rw [show (((2 : Nat)) : ℚ) = (2 : ℚ) by norm_num]
    rw [Nat.ceil_eq_iff (by norm_num)]
    norm_num
  have hrow : max 1 ⌈(3 : ℚ) /
      (Nat.cast (max 1 (ceil_sqrt_rat ((3 : ℚ) * aspect_ratio_guarded portraitMonitor))) : ℚ)⌉₊ = 2 := by
    rw [hcol, h32]
    omega
  unfold get_number_of_rows_columns
  rw [if_neg (by norm_num : ¬ (3 : Nat) ≤ 0),
    if_neg (by decide : ¬ portraitMonitor.height = 0)]
  have hc1 : ¬ (aspect_ratio_guarded portraitMonitor = 16 / 9 ∧
      FULL_HD_RESOLUTION.1 ≤ portraitMonitor.width ∧ (3 : Nat) = 2) := by
    rw [haspect]
    intro hcon
    exact absurd hcon.1 (by norm_num)
  have hc2 : ¬ (aspect_ratio_guarded portraitMonitor = 16 / 9 ∧
      FULL_HD_RESOLUTION.1 ≤ portraitMonitor.width ∧ (3 : Nat) = 3 ∧
      QHD_RESOLUTION.1 ≤ portraitMonitor.width) := by
    rw [haspect]
    intro hcon
    exact absurd hcon.1 (by norm_num)
  rw [if_neg hc1, if_neg hc2]
  refine congrArg Except.ok ?_
  unfold general_rows_columns
  refine (grow_congr _ _ _ _ _ 2 2 _ _ hrow hcol).trans ?_
  rw [grow]
  rw [dif_neg (by norm_num : ¬ 2 * 2 < 3)]

/-- C4 counterexample: on the 1080x1920 portrait monitor with three
windows the heuristic returns `(2, 2)`, so the returned rows are not
strictly greater than the returned columns. -/
theorem C4_counterexample :
    ¬ ∃ rows columns : Nat,
      get_number_of_rows_columns 3 portraitMonitor = Except.ok (rows, columns) ∧
        columns < rows := by
  rintro ⟨rows, columns, heq, hlt⟩
  rw [portrait_eval] at heq
  have h1 : (2, 2) = (rows, columns) := by
    injection heq
  have h2 : rows = 2 ∧ columns = 2 := by
    constructor <;> injection h1 <;> omega
  omega

/-- C4 amended: for three windows on the 1080x1920 portrait monitor the
heuristic returns `(rows, columns) = (2, 2)`: rows equal columns, they
are not strictly greater. -/
theorem C4_amended_portrait_square :
    get_number_of_rows_columns 3 portraitMonitor = Except.ok (2, 2) :=
  portrait_eval

/-- C6: `get_number_of_rows_columns` reports a caller error when the
window count is zero or the monitor height is zero, and returns a
result (never an error) for every positive window count and nonzero
height. -/
theorem C6_input_validation (window_count : Nat) (m : Monitor) :
    (window_count = 0 →
      get_number_of_rows_columns window_count m =
        Except.error "window_count must be greater than zero") ∧
    (m.height = 0 →
      ∃ msg, get_number_of_rows_columns window_count m = Except.error msg) ∧
    (0 < window_count → m.height ≠ 0 →
      ∃ p, get_number_of_rows_columns window_count m = Except.ok p) := by
  refine ⟨?_, ?_, fun hw hh => get_rows_columns_ok window_count m hw hh⟩
  · intro h0
    subst h0
    unfold get_number_of_rows_columns
    rw [if_pos (by decide : (0 : Nat) ≤ 0)]
  · intro hh
    by_cases h0 : window_count ≤ 0
    · refine ⟨"window_count must be greater than zero", ?_⟩
      unfold get_number_of_rows_columns
      rw [if_pos h0]
    · refine ⟨"Monitor height cannot be zero", ?_⟩
      unfold get_number_of_rows_columns
      rw [if_neg h0, if_pos hh]

/-- C6 witness: the zero-window call errors, the zero-height call
errors, and a valid call returns a grid. -/
theorem C6_input_validation_witness :
    get_number_of_rows_columns 0 (Monitor.mk 2 "a" 0 0 100 100) =
      Except.error "window_count must be greater than zero" ∧
    (∃ msg, get_number_of_rows_columns 3 (Monitor.mk 3 "b" 0 0 100 0) =
      Except.error msg) ∧
    ∃ p, get_number_of_rows_columns 3 (Monitor.mk 4 "c" 0 0 100 100) = Except.ok p :=
  ⟨(C6_input_validation 0 (Monitor.mk 2 "a" 0 0 100 100)).1 rfl,
    (C6_input_validation 3 (Monitor.mk 3 "b" 0 0 100 0)).2.1 rfl,
    (C6_input_validation 3 (Monitor.mk 4 "c" 0 0 100 100)).2.2 (by decide) (by decide)⟩

/-- C7: starting from any grid with both dimensions at least one, each
iteration of the capacity-growth step strictly increases the product
`rows * columns`; the loop embodied by `grow` stops at some iterate of
the step whose product is at least `window_count`; and on the whole
precondition domain the heuristic is total (returns `Except.ok`). -/
theorem C7_growth_loop_terminates (window_count : Nat) (m : Monitor)
    (hw : 0 < window_count) (hh : m.height ≠ 0)
    (rows columns : Nat) (hr : 1 ≤ rows) (hc : 1 ≤ columns) :
    (∀ n : Nat,
      ((grow_step m.width m.height)^[n] (rows, columns)).1 *
        ((grow_step m.width m.height)^[n] (rows, columns)).2 <
      ((grow_step m.width m.height)^[n + 1] (rows, columns)).1 *
        ((grow_step m.width m.height)^[n + 1] (rows, columns)).2) ∧
    (∃ n : Nat,
      grow m.width m.height window_count rows columns hr hc =
        (grow_step m.width m.height)^[n] (rows, columns) ∧
      window_count ≤
        (grow m.width m.height window_count rows columns hr hc).1 *
          (grow m.width m.height window_count rows columns hr hc).2) ∧
    ∃ p, get_number_of_rows_columns window_count m = Except.ok p := by
  refine ⟨?_, ?_, get_rows_columns_ok window_count m hw hh⟩
  · intro n
    obtain ⟨hq1, hq2, _⟩ :=
      grow_step_iterate_ge m.width m.height (rows, columns) hr hc n
    rw [Function.iterate_succ_apply']
    exact grow_step_strict_product m.width m.height _ hq1 hq2
  · refine ⟨Nat.find (grow_step_reaches m.width m.height window_count (rows, columns) hr hc),
      ?_, ?_⟩
    · rw [grow_eq_firstSufficient, firstSufficient_eq_iterate]
    · rw [grow_eq_firstSufficient]
      exact firstSufficient_capacity m.width m.height window_count (rows, columns) hr hc

/-- C7 witness: the theorem applied to five windows on a 1920x1080
monitor starting from the one-by-one grid; its totality component. -/
theorem C7_growth_loop_terminates_witness :
    ∃ p, get_number_of_rows_columns 5 (Monitor.mk 5 "d" 0 0 1920 1080) = Except.ok p :=
  (C7_growth_loop_terminates 5 (Monitor.mk 5 "d" 0 0 1920 1080) (by decide) (by decide)
    1 1 (by decide) (by decide)).2.2

/-- C8: `Monitor.contains` is the half-open rectangle test: it accepts
the top-left corner, rejects the point one full width to the right of
it, and in general holds iff `x <= px < x + width` and
`y <= py < y + height`. -/
theorem C8_contains_half_open (m : Monitor) (hw : 0 < m.width) (hh : 0 < m.height) :
    (m.contains m.x m.y = true ∧ m.contains (m.x + m.width) m.y = false) ∧
    ∀ px py : Int, m.contains px py = true ↔
      (m.x ≤ px ∧ px < m.x + m.width ∧ m.y ≤ py ∧ py < m.y + m.height) := by
  have hgen : ∀ px py : Int, m.contains px py = true ↔
      (m.x ≤ px ∧ px < m.x + m.width ∧ m.y ≤ py ∧ py < m.y + m.height) := by
    intro px py
    unfold Monitor.contains
    simp [Bool.and_eq_true, decide_eq_true_eq, and_assoc]
  refine ⟨⟨?_, ?_⟩, hgen⟩
  · rw [hgen]
    refine ⟨le_refl _, ?_, le_refl _, ?_⟩ <;> omega
  · cases hb : m.contains (m.x + (m.width : Int)) m.y
    · rfl
    · exfalso
      have h2 := (hgen (m.x + m.width) m.y).mp hb
      omega

/-- C8 witness: the theorem applied to a 1920x1080 monitor whose
top-left corner is `(-5, 10)`. -/
theorem C8_contains_half_open_witness :
    (Monitor.mk 6 "w" (-5) 10 1920 1080).contains (-5) 10 = true ∧
    (Monitor.mk 6 "w" (-5) 10 1920 1080).contains ((-5) + 1920) 10 = false :=
  (C8_contains_half_open (Monitor.mk 6 "w" (-5) 10 1920 1080) (by decide) (by decide)).1

/-- C5: the Linux `verify_window_move` (which performs exactly one
re-query, supplied here as the single `requery` oracle value) returns
true iff the re-queried window exists, its derived monitor is the
target monitor, and both coordinates are within 10 pixels of the
expected position; in particular it returns false whenever the derived
monitor differs from the target, coordinates notwithstanding. -/
theorem C5_verify_window_move (requery : Option Window)
    (monitorFor : Window → Option Monitor) (window : Window)
    (target_monitor : Monitor) (expected_x expected_y : Int) :
    ((WindowManagerImpl.verify_window_move requery monitorFor window target_monitor
        expected_x expected_y).1 = true ↔
      ∃ u, requery = some u ∧ monitorFor u = some target_monitor ∧
        |u.x - expected_x| ≤ 10 ∧ |u.y - expected_y| ≤ 10) ∧
    ∀ u, requery = some u → monitorFor u ≠ some target_monitor →
      (WindowManagerImpl.verify_window_move requery monitorFor window target_monitor
        expected_x expected_y).1 = false := by
  cases requery with
  | none =>
    constructor
    · simp [WindowManagerImpl.verify_window_move]
    · intro u hu
      cases hu
  | some u =>
    simp only [WindowManagerImpl.verify_window_move]
    split_ifs with hmon habs
    · constructor
      · simp only [Option.some.injEq]
        constructor
        · intro hfalse
          cases hfalse
        · rintro ⟨u', hu', hm', _, _⟩
          subst hu'
          exact absurd hm' hmon
      · intro u' hu' hm'
        rfl
    · push_neg at hmon
      constructor
      · simp only [Option.some.injEq]
        constructor
        · intro hfalse
          cases hfalse
        · rintro ⟨u', hu', hm', hx, hy⟩
          subst hu'
          rcases habs with h | h
          · exact absurd hx (not_le.mpr h)
          · exact absurd hy (not_le.mpr h)
      · intro u' hu' hm'
        injection hu' with h
        subst h
        exact absurd hmon hm'
    · push_neg at hmon habs
      constructor
      · constructor
        · intro _
          exact ⟨u, rfl, hmon, habs.1, habs.2⟩
        · intro _
          rfl
      · intro u' hu' hm'
        injection hu' with h
        subst h
        exact absurd hmon hm'

/-- C5 witness: a re-query at `(3, 4)` against expectation `(0, 0)` on
the target monitor verifies successfully. -/
theorem C5_verify_window_move_witness :
    (WindowManagerImpl.verify_window_move
      (some (Window.mk "0x3" (some "u") 3 4 640 480 false none))
      (fun _ => some (Monitor.mk 7 "t" 0 0 1920 1080))
      (Window.mk "0x3" (some "u") 0 0 640 480 false none)
      (Monitor.mk 7 "t" 0 0 1920 1080) 0 0).1 = true :=
  (C5_verify_window_move
    (some (Window.mk "0x3" (some "u") 3 4 640 480 false none))
    (fun _ => some (Monitor.mk 7 "t" 0 0 1920 1080))
    (Window.mk "0x3" (some "u") 0 0 640 480 false none)
    (Monitor.mk 7 "t" 0 0 1920 1080) 0 0).1.mpr
    ⟨Window.mk "0x3" (some "u") 3 4 640 480 false none, rfl, rfl, by decide, by decide⟩

/-- C10: `verify_window_move` mutates the passed-in window exactly on
the success path, setting its cached `x, y` to the re-queried
coordinates; every failing call leaves the window unchanged. -/
theorem C10_verify_window_move_mutation (requery : Option Window)
    (monitorFor : Window → Option Monitor) (window : Window)
    (target_monitor : Monitor) (expected_x expected_y : Int) :
    ((WindowManagerImpl.verify_window_move requery monitorFor window target_monitor
        expected_x expected_y).1 = false →
      (WindowManagerImpl.verify_window_move requery monitorFor window target_monitor
        expected_x expected_y).2 = window) ∧
    ∀ u, requery = some u →
      (WindowManagerImpl.verify_window_move requery monitorFor window target_monitor
        expected_x expected_y).1 = true →
      (WindowManagerImpl.verify_window_move requery monitorFor window target_monitor
        expected_x expected_y).2 = { window with x := u.x, y := u.y } := by
  cases requery with
  | none =>
    constructor
    · intro _
      rfl
    · intro u hu
      cases hu
  | some u =>
    simp only [WindowManagerImpl.verify_window_move]
    split_ifs with hmon habs
    · refine ⟨fun _ => rfl, ?_⟩
      intro u' hu' htrue
      cases htrue
    · refine ⟨fun _ => rfl, ?_⟩
      intro u' hu' htrue
      cases htrue
    · constructor
      · intro hfalse
        cases hfalse
      · intro u' hu' _
        injection hu' with h
        subst h
        rfl

/-- C10 witness: the successful verification of the C5 witness rewrites
the cached coordinates to the re-queried `(3, 4)`. -/
theorem C10_verify_window_move_mutation_witness :
    (WindowManagerImpl.verify_window_move
      (some (Window.mk "0x3" (some "u") 3 4 640 480 false none))
      (fun _ => some (Monitor.mk 7 "t" 0 0 1920 1080))
      (Window.mk "0x3" (some "u") 0 0 640 480 false none)
      (Monitor.mk 7 "t" 0 0 1920 1080) 0 0).2 =
      Window.mk "0x3" (some "u") 3 4 640 480 false none :=
  (C10_verify_window_move_mutation
    (some (Window.mk "0x3" (some "u") 3 4 640 480 false none))
    (fun _ => some (Monitor.mk 7 "t" 0 0 1920 1080))
    (Window.mk "0x3" (some "u") 0 0 640 480 false none)
    (Monitor.mk 7 "t" 0 0 1920 1080) 0 0).2
    (Window.mk "0x3" (some "u") 3 4 640 480 false none) rfl (by decide)

/-- The window of the C1 failing input. -/
def failingMoveWindow : Window :=
  { id := "0x1", name := some "editor", x := 0, y := 0, width := 640, height := 480,
    is_active := false }

/-- C1 (code bug): when the wmctrl move command fails, `run_command`
catches the exception and returns the empty string, so the
`result is not None` test still succeeds: the cached fields are updated
to the requested coordinates anyway and the move-specific failure log is
never reached. -/
theorem C1_failure_still_updates_fields :
    (WindowManagerImpl.move_window_to_position none failingMoveWindow 5 7).1.x = 5 ∧
    (WindowManagerImpl.move_window_to_position none failingMoveWindow 5 7).1.y = 7 ∧
    (WindowManagerImpl.move_window_to_position none failingMoveWindow 5 7).2 = false :=
  ⟨rfl, rfl, rfl⟩

theorem find_first_eq_none_iff (p : α → Bool) (l : List α) :
    find_first p l = none ↔ ∀ a ∈ l, p a = false := by
  induction l with
  | nil => simp [find_first]
  | cons a t ih =>
    by_cases hpa : p a = true
    · simp [find_first, hpa]
    · have hpa' : p a = false := by
        cases h : p a
        · rfl
        · exact absurd h hpa
      simp [find_first, hpa', ih]

theorem find_first_eq_some_iff (p : α → Bool) (l : List α) (a : α) :
    find_first p l = some a ↔
      ∃ l1 l2, l = l1 ++ a :: l2 ∧ p a = true ∧ ∀ u ∈ l1, p u = false := by
  induction l with
  | nil =>
    simp only [find_first]
    constructor
    · intro h
      cases h
    · rintro ⟨l1, l2, heq, -, -⟩
      exact absurd heq.symm (by simp)
  | cons b t ih =>
    by_cases hpb : p b = true
    · rw [find_first, if_pos hpb]
      constructor
      · intro h
        injection h with h
        subst h
        exact ⟨[], t, rfl, hpb, by intro u hu; cases hu⟩
      · rintro ⟨l1, l2, heq, hpa, hall⟩
        cases l1 with
        | nil =>
          injection heq with h1 _
          rw [h1]
        | cons c l1' =>
          injection heq with h1 _
          have hc := hall c (List.mem_cons_self c l1')
          rw [← h1] at hc
          rw [hc] at hpb
          cases hpb
    · rw [find_first, if_neg hpb, ih]
      have hpb' : p b = false := by
        cases h : p b
        · rfl
        · exact absurd h hpb
      constructor
      · rintro ⟨l1, l2, heq, hpa, hall⟩
        refine ⟨b :: l1, l2, by rw [heq]; exact (List.cons_append b l1 (a :: l2)).symm, hpa, ?_⟩
        intro u hu
        rcases List.mem_cons.mp hu with h | h
        · rw [h]
          exact hpb'
        · exact hall u h
      · rintro ⟨l1, l2, heq, hpa, hall⟩
        cases l1 with
        | nil =>
          injection heq with h1 _
          rw [h1] at hpb'
          rw [hpb'] at hpa
          cases hpa
        | cons c l1' =>
          injection heq with h1 h2
          refine ⟨l1', l2, h2, hpa, ?_⟩
          intro u hu
          exact hall u (List.mem_cons_of_mem c hu)

/-- C9 counterexample: on the macOS backend a listed window titled
"Firefox" contains the query "fire" as a case-insensitive substring,
yet `get_window_by_name` returns an absent result, because that backend
compares titles by exact, case-sensitive equality. -/
theorem C9_counterexample :
    nameMatches "fire" (Window.mk "0x2a" (some "Firefox") 0 0 800 600 true none) = true ∧
    MacOSWindowManager.get_window_by_name
      [Window.mk "0x2a" (some "Firefox") 0 0 800 600 true none] "fire" = none := by
  constructor
  · decide
  · decide

/-- C9 amended: the Linux backend returns the first window in list
order whose title contains the query case-insensitively and an absent
result (never an error) when no title matches, while the macOS backend
returns the first window whose title equals the query exactly and
case-sensitively, and an absent result otherwise. -/
theorem C9_lookup_by_name (ws : List Window) (q : String) :
    (WindowManagerImpl.get_window_by_name ws q = none ↔
      ∀ w ∈ ws, nameMatches q w = false) ∧
    (∀ w, WindowManagerImpl.get_window_by_name ws q = some w →
      nameMatches q w = true ∧
        ∃ l1 l2, ws = l1 ++ w :: l2 ∧ ∀ u ∈ l1, nameMatches q u = false) ∧
    (MacOSWindowManager.get_window_by_name ws q = none ↔
      ∀ w ∈ ws, (w.name.getD "" == q) = false) ∧
    ∀ w, MacOSWindowManager.get_window_by_name ws q = some w →
      (w.name.getD "" == q) = true ∧
        ∃ l1 l2, ws = l1 ++ w :: l2 ∧ ∀ u ∈ l1, (u.name.getD "" == q) = false := by
  refine ⟨?_, ?_, ?_, ?_⟩
  · exact find_first_eq_none_iff _ ws
  · intro w h
    obtain ⟨l1, l2, heq, hp, hall⟩ :=
      (find_first_eq_some_iff (fun w => nameMatches q w) ws w).mp h
    exact ⟨hp, l1, l2, heq, hall⟩
  · exact find_first_eq_none_iff _ ws
  · intro w h
    obtain ⟨l1, l2, heq, hp, hall⟩ :=
      (find_first_eq_some_iff (fun w : Window => w.name.getD "" == q) ws w).mp h
    exact ⟨hp, l1, l2, heq, hall⟩

/-- C9 witness: the Linux lookup of "fire" over a one-window list finds
the window titled "Firefox" as its first match. -/
theorem C9_lookup_by_name_witness :
    nameMatches "fire" (Window.mk "0x2a" (some "Firefox") 0 0 800 600 true none) = true ∧
    ∃ l1 l2,
      [Window.mk "0x2a" (some "Firefox") 0 0 800 600 true none] =
        l1 ++ (Window.mk "0x2a" (some "Firefox") 0 0 800 600 true none) :: l2 ∧
      ∀ u ∈ l1, nameMatches "fire" u = false :=
  (C9_lookup_by_name [Window.mk "0x2a" (some "Firefox") 0 0 800 600 true none]
    "fire").2.1 (Window.mk "0x2a" (some "Firefox") 0 0 800 600 true none) (by decide)

/-- C3: on a monitor with at least two matched windows (and a nonzero
height, without which the per-monitor exception handler swallows the
heuristic error), the mosaic engine sorts the windows by
case-insensitive title (missing titles as the empty string), computes
the grid from the heuristic, uses cell size `width // columns` by
`height // rows`, and issues for the i-th sorted window a resize to the
cell size followed by a move to
`(monitor.x + (i % columns) * cell_width,
monitor.y + (i / columns) * cell_height)` — row-major order. -/
theorem C3_mosaic_places_row_major (isMax : Window → Bool) (m : Monitor)
    (ws : List Window) (hh : m.height ≠ 0) (hn : 2 ≤ ws.length) :
    ∃ rows columns,
      get_number_of_rows_columns ws.length m = Except.ok (rows, columns) ∧
      (sortWindows ws).Perm ws ∧
      List.Pairwise (fun a b => sortKey a ≤ sortKey b) (sortWindows ws) ∧
      mosaic_for_monitor isMax m ws =
        (sortWindows ws).enum.flatMap (fun q =>
          (if isMax q.2 then [Cmd.unmaximize q.2.id] else []) ++
          [Cmd.resize q.2.id (m.width / columns) (m.height / rows),
           Cmd.move q.2.id (m.x + ((q.1 % columns) * (m.width / columns) : Nat))
             (m.y + ((q.1 / columns) * (m.height / rows) : Nat))]) := by
  obtain ⟨p, hp⟩ := get_rows_columns_ok ws.length m (by omega) hh
  obtain ⟨rows, columns⟩ := p
  have hlen : (sortWindows ws).length = ws.length := by
    unfold sortWindows
    exact List.length_mergeSort ws
  refine ⟨rows, columns, hp, ?_, ?_, ?_⟩
  · exact List.mergeSort_perm ws windowLe
  · have htrans : ∀ a b c : Window,
        windowLe a b → windowLe b c → windowLe a c := by
      intro a b c hab hbc
      simp only [windowLe, decide_eq_true_eq] at *
      exact le_trans hab hbc
    have htotal : ∀ a b : Window, windowLe a b || windowLe b a := by
      intro a b
      simp only [windowLe, Bool.or_eq_true, decide_eq_true_eq]
      exact le_total _ _
    have hs := List.sorted_mergeSort htrans htotal ws
    refine hs.imp ?_
    intro a b hab
    simpa [windowLe, decide_eq_true_eq] using hab
  · unfold mosaic_for_monitor
    have hne : ws.isEmpty = false := by
      cases ws with
      | nil => simp at hn
      | cons a t => rfl
    rw [if_neg (by simp [hne] : ¬ ws.isEmpty = true)]
    rw [if_neg (by rw [hlen]; omega : ¬ (sortWindows ws).length = 1)]
    rw [hlen, hp]
    rfl

/-- C3 witness: two windows on a 100x100 monitor, neither maximized. -/
theorem C3_mosaic_places_row_major_witness :
    ∃ rows columns,
      get_number_of_rows_columns
        ([Window.mk "1" (some "b") 0 0 10 10 false none,
          Window.mk "2" (some "a") 0 0 10 10 false none].length)
        (Monitor.mk 8 "e" 0 0 100 100) = Except.ok (rows, columns) ∧
      (sortWindows [Window.mk "1" (some "b") 0 0 10 10 false none,
          Window.mk "2" (some "a") 0 0 10 10 false none]).Perm
        [Window.mk "1" (some "b") 0 0 10 10 false none,
          Window.mk "2" (some "a") 0 0 10 10 false none] ∧
      List.Pairwise (fun a b => sortKey a ≤ sortKey b)
        (sortWindows [Window.mk "1" (some "b") 0 0 10 10 false none,
          Window.mk "2" (some "a") 0 0 10 10 false none]) ∧
      mosaic_for_monitor (fun _ => false) (Monitor.mk 8 "e" 0 0 100 100)
          [Window.mk "1" (some "b") 0 0 10 10 false none,
            Window.mk "2" (some "a") 0 0 10 10 false none] =
        (sortWindows [Window.mk "1" (some "b") 0 0 10 10 false none,
            Window.mk "2" (some "a") 0 0 10 10 false none]).enum.flatMap (fun q =>
          (if (fun _ => false) q.2 then [Cmd.unmaximize q.2.id] else []) ++
          [Cmd.resize q.2.id (100 / columns) (100 / rows),
           Cmd.move q.2.id ((0 : Int) + ((q.1 % columns) * (100 / columns) : Nat))
             ((0 : Int) + ((q.1 / columns) * (100 / rows) : Nat))]) :=
  C3_mosaic_places_row_major (fun _ => false) (Monitor.mk 8 "e" 0 0 100 100)
    [Window.mk "1" (some "b") 0 0 10 10 false none,
      Window.mk "2" (some "a") 0 0 10 10 false none] (by decide) (by decide)

end Janela
